import Mathlib

/-!
Verification development for the knowledge_rag data-cleaning pipeline
(`experiments/scripts/01_data_processing.py`).

The Python source is shallowly embedded below.  Machine-level collaborators
(pdfplumber page geometry, pandas dataframes, the filesystem) are abstracted
at the adapter boundary: each adapter receives the already-extracted data
(page texts, rows of cells, raw file text, paragraph texts) exactly where the
Python code receives them from the external library.  Everything downstream of
that boundary — cleaning, sentence splitting, chunk assembly, section-title
tracking, record building and identifier generation (including a full MD5
implementation mirroring `hashlib.md5(...).hexdigest()`) — is embedded
faithfully from the source.
-/

namespace KnowledgeRag

/-! ## Configuration constants (配置区域 of the script) -/

def CHUNK_SIZE : Nat := 500

def MIN_CHUNK_SIZE : Nat := 50

def OVERLAP_SENTENCES : Nat := 2

def TOP_CROP_RATIO : ℚ := 5 / 100

def BOTTOM_CROP_RATIO : ℚ := 8 / 100

/-! ## Python character semantics

`isPythonSpace` models Python's regex `\s` / `str.strip` whitespace set for
`str` patterns (ASCII whitespace plus the Unicode whitespace code points).
`isPythonPrintable` models `str.isprintable`: the space character is
printable, every other whitespace character is not, C0/C1 control characters
are not, and all remaining characters appearing in this development are
printable.  (Unicode Cf/Co/Cn categories outside the control ranges are not
modeled; no definition or theorem below depends on them.) -/

def isPythonSpace (c : Char) : Bool :=
  c = ' ' || c = '\t' || c = '\n' || c = '\r' || c = '\x0b' || c = '\x0c' ||
  (0x1c ≤ c.toNat && c.toNat ≤ 0x1f) || c.toNat = 0x85 || c.toNat = 0xa0 ||
  c.toNat = 0x1680 || (0x2000 ≤ c.toNat && c.toNat ≤ 0x200a) ||
  c.toNat = 0x2028 || c.toNat = 0x2029 || c.toNat = 0x202f ||
  c.toNat = 0x205f || c.toNat = 0x3000

def isPythonPrintable (c : Char) : Bool :=
  if c = ' ' then true
  else if isPythonSpace c then false
  else !(c.toNat < 0x20 || (0x7f ≤ c.toNat && c.toNat ≤ 0x9f))

/-- Python `str.strip()`: drop whitespace from both ends. -/
def pyStrip (s : String) : String :=
  String.mk (((s.data.dropWhile isPythonSpace).reverse.dropWhile isPythonSpace).reverse)

/-- Python `str.rstrip()`: drop whitespace from the right end. -/
def pyRstrip (s : String) : String :=
  String.mk ((s.data.reverse.dropWhile isPythonSpace).reverse)

/-- Python `"".join(l)` over a list of strings. -/
def joinAll : List String → String
  | [] => ""
  | s :: rest => s ++ joinAll rest

/-! ## TextNormalizer: `clean_text_basic` -/

/-- One pass of `re.sub(r'\s+', ' ', text)`: every maximal whitespace run is
replaced by a single space.  The boolean argument records whether the
previously consumed character was whitespace (i.e. we are inside a run). -/
def collapseWsAux : Bool → List Char → List Char
  | _, [] => []
  | prevWs, c :: cs =>
    if isPythonSpace c then
      if prevWs then collapseWsAux true cs else ' ' :: collapseWsAux true cs
    else c :: collapseWsAux false cs

/-- `clean_text_basic`: collapse whitespace runs to a single space, drop
non-printable characters, then strip.  (The Python early return for the empty
string yields the same value as the pipeline below.) -/
def clean_text_basic (t : String) : String :=
  pyStrip (String.mk ((collapseWsAux false t.data).filter isPythonPrintable))

/-! ## SentenceSplitter: `split_sentences` -/

/-- The sentence-terminator set of the regex `([。！？\n])`. -/
def sentDelim (c : Char) : Bool :=
  c = '。' || c = '！' || c = '？' || c = '\n'

/-- The recombination loop of `split_sentences`: characters are accumulated
(in reverse) into `acc`; a terminator closes the current sentence (stripped);
a non-empty leftover is emitted (stripped) at the end.  This is the character
level reading of `re.split` with a capturing group followed by the Python
for-loop over the parts. -/
def splitSentencesAux (acc : List Char) : List Char → List String
  | [] => if acc.isEmpty then [] else [pyStrip (String.mk acc.reverse)]
  | c :: cs =>
    if sentDelim c then
      pyStrip (String.mk (c :: acc).reverse) :: splitSentencesAux [] cs
    else
      splitSentencesAux (c :: acc) cs

/-- `split_sentences`: split on 。！？ and newline, keep the delimiter at the
end of its sentence, strip each sentence, drop empty sentences. -/
def split_sentences (t : String) : List String :=
  (splitSentencesAux [] t.data).filter (fun s => !s.isEmpty)

/-! ## ChunkAssembler: `semantic_chunking` -/

/-- Python slice `l[-k:]` on a list (for `k = 0` this is the whole list). -/
def pySliceLast (l : List String) (k : Nat) : List String :=
  if k = 0 then l else l.drop (l.length - k)

/-- The accumulation loop of `semantic_chunking`: `current` is the list of
accumulated sentences, `current_len` their summed character length.  When
appending the next sentence would exceed `chunk_size` and the accumulator is
non-empty, the accumulator is flushed and reseeded with its last `overlap`
sentences. -/
def chunkLoop (chunk_size overlap : Nat) : List String → List String → Nat → List String
  | [], current, _ => if current.isEmpty then [] else [joinAll current]
  | sent :: rest, current, current_len =>
    if chunk_size < current_len + sent.length ∧ 0 < current_len then
      let overlap_data :=
        if overlap ≤ current.length then pySliceLast current overlap else current
      joinAll current ::
        chunkLoop chunk_size overlap rest (overlap_data ++ [sent])
          ((overlap_data.map String.length).sum + sent.length)
    else
      chunkLoop chunk_size overlap rest (current ++ [sent]) (current_len + sent.length)

/-- `semantic_chunking`: sentence-aggregating chunker.  In the script the
overlap width is the module constant `OVERLAP_SENTENCES`; it is passed
explicitly here alongside `chunk_size`. -/
def semantic_chunking (text : String) (chunk_size overlap : Nat) : List String :=
  chunkLoop chunk_size overlap (split_sentences text) [] 0

/-! ## SectionTitleTracker: `extract_title` -/

def cjkNumeral (c : Char) : Bool :=
  c = '一' || c = '二' || c = '三' || c = '四' || c = '五' ||
  c = '六' || c = '七' || c = '八' || c = '九' || c = '十'

/-- Second alternative of the title regex, `^[\d\.]+\s`: a leading run of
digits/dots followed by a whitespace character; `match.group().strip()`
removes the trailing whitespace, leaving just the run. -/
def numberedHeading (head : List Char) : String :=
  let run := head.takeWhile (fun c => c.isDigit || c = '.')
  match (head.drop run.length).head? with
  | some c => if !run.isEmpty && isPythonSpace c then String.mk run else ""
  | none => ""

/-- `extract_title`: `re.search(r'(^第[一二三四五六七八九十]+章|^[\d\.]+\s)', text[:50])`
followed by `.strip()` of the matched substring; `""` when there is no match.
Both alternatives are anchored, so the search succeeds only at position 0; the
first alternative matches a leading `第`, a maximal non-empty run of CJK
numerals, then `章`, and the matched substring stops at that `章`. -/
def extract_title (text : String) : String :=
  let head := text.data.take 50
  match head with
  | '第' :: rest =>
    let nums := rest.takeWhile cjkNumeral
    if !nums.isEmpty && ((rest.drop nums.length).head? == some '章') then
      String.mk ('第' :: (nums ++ ['章']))
    else numberedHeading head
  | _ => numberedHeading head

/-! ## Anchor extraction: `re.match(r'[^。！？]*[。！？]', chunk_text)` -/

/-- The anchored match `[^。！？]*[。！？]`: the shortest leading segment ending
at the first sentence-terminating punctuation mark, if one exists. -/
def firstSentence : List Char → Option (List Char)
  | [] => none
  | c :: cs =>
    if c = '。' || c = '！' || c = '？' then some [c]
    else (firstSentence cs).map (fun l => c :: l)

/-- Anchor of a chunk: the first sentence if a terminator exists, otherwise
the first 30 characters (`chunk_text[:30]`). -/
def anchorOf (s : String) : String :=
  match firstSentence s.data with
  | some l => String.mk l
  | none => String.mk (s.data.take 30)

/-! ## `generate_doc_id`: MD5 of the UTF-8 bytes of the relative path

`hashlib.md5(file_name.encode('utf-8')).hexdigest()` is embedded as a full
MD5 implementation over `Nat` (32-bit words are `Nat` values reduced modulo
`2^32`). -/

/-- UTF-8 encoding of one character as a list of byte values. -/
def utf8EncodeChar (c : Char) : List Nat :=
  let v := c.toNat
  if v < 0x80 then [v]
  else if v < 0x800 then [0xc0 + v / 0x40, 0x80 + v % 0x40]
  else if v < 0x10000 then
    [0xe0 + v / 0x1000, 0x80 + v / 0x40 % 0x40, 0x80 + v % 0x40]
  else
    [0xf0 + v / 0x40000, 0x80 + v / 0x1000 % 0x40,
     0x80 + v / 0x40 % 0x40, 0x80 + v % 0x40]

/-- `s.encode('utf-8')` as a list of byte values. -/
def toBytes (s : String) : List Nat :=
  (s.data.map utf8EncodeChar).flatten

/-- The 64 MD5 sine-derived constants. -/
def md5K : List Nat :=
  [0xd76aa478, 0xe8c7b756, 0x242070db, 0xc1bdceee,
   0xf57c0faf, 0x4787c62a, 0xa8304613, 0xfd469501,
   0x698098d8, 0x8b44f7af, 0xffff5bb1, 0x895cd7be,
   0x6b901122, 0xfd987193, 0xa679438e, 0x49b40821,
   0xf61e2562, 0xc040b340, 0x265e5a51, 0xe9b6c7aa,
   0xd62f105d, 0x02441453, 0xd8a1e681, 0xe7d3fbc8,
   0x21e1cde6, 0xc33707d6, 0xf4d50d87, 0x455a14ed,
   0xa9e3e905, 0xfcefa3f8, 0x676f02d9, 0x8d2a4c8a,
   0xfffa3942, 0x8771f681, 0x6d9d6122, 0xfde5380c,
   0xa4beea44, 0x4bdecfa9, 0xf6bb4b60, 0xbebfbc70,
   0x289b7ec6, 0xeaa127fa, 0xd4ef3085, 0x04881d05,
   0xd9d4d039, 0xe6db99e5, 0x1fa27cf8, 0xc4ac5665,
   0xf4292244, 0x432aff97, 0xab9423a7, 0xfc93a039,
   0x655b59c3, 0x8f0ccc92, 0xffeff47d, 0x85845dd1,
   0x6fa87e4f, 0xfe2ce6e0, 0xa3014314, 0x4e0811a1,
   0xf7537e82, 0xbd3af235, 0x2ad7d2bb, 0xeb86d391]

/-- The 64 MD5 per-round left-rotation amounts. -/
def md5S : List Nat :=
  [7, 12, 17, 22, 7, 12, 17, 22, 7, 12, 17, 22, 7, 12, 17, 22,
   5, 9, 14, 20, 5, 9, 14, 20, 5, 9, 14, 20, 5, 9, 14, 20,
   4, 11, 16, 23, 4, 11, 16, 23, 4, 11, 16, 23, 4, 11, 16, 23,
   6, 10, 15, 21, 6, 10, 15, 21, 6, 10, 15, 21, 6, 10, 15, 21]

/-- 32-bit left rotation on a value `< 2^32`. -/
def rotl32 (x s : Nat) : Nat :=
  (x % 2 ^ (32 - s)) * 2 ^ s + x / 2 ^ (32 - s)

/-- 32-bit bitwise complement. -/
def bnot32 (x : Nat) : Nat := Nat.xor x 4294967295

/-- The MD5 round function for step `i` (F, G, H, I by round quarter). -/
def md5F (i b c d : Nat) : Nat :=
  if i < 16 then Nat.lor (Nat.land b c) (Nat.land (bnot32 b) d)
  else if i < 32 then Nat.lor (Nat.land d b) (Nat.land (bnot32 d) c)
  else if i < 48 then Nat.xor b (Nat.xor c d)
  else Nat.xor c (Nat.lor b (bnot32 d))

/-- Message-word index for step `i`. -/
def md5G (i : Nat) : Nat :=
  if i < 16 then i
  else if i < 32 then (5 * i + 1) % 16
  else if i < 48 then (3 * i + 5) % 16
  else (7 * i) % 16

/-- Little-endian 32-bit word `j` of a 64-byte block. -/
def md5Word (block : List Nat) (j : Nat) : Nat :=
  block.getD (4 * j) 0 + 256 * block.getD (4 * j + 1) 0 +
    65536 * block.getD (4 * j + 2) 0 + 16777216 * block.getD (4 * j + 3) 0

/-- One MD5 step on the state `(a, b, c, d)`. -/
def md5Step (block : List Nat) (st : Nat × Nat × Nat × Nat) (i : Nat) :
    Nat × Nat × Nat × Nat :=
  let f := (md5F i st.2.1 st.2.2.1 st.2.2.2 + st.1 + md5K.getD i 0 +
            md5Word block (md5G i)) % 4294967296
  (st.2.2.2, (st.2.1 + rotl32 f (md5S.getD i 0)) % 4294967296, st.2.1, st.2.2.1)

/-- Process one 64-byte block. -/
def md5Block (st : Nat × Nat × Nat × Nat) (block : List Nat) :
    Nat × Nat × Nat × Nat :=
  let r := (List.range 64).foldl (md5Step block) st
  ((st.1 + r.1) % 4294967296, (st.2.1 + r.2.1) % 4294967296,
   (st.2.2.1 + r.2.2.1) % 4294967296, (st.2.2.2 + r.2.2.2) % 4294967296)

/-- MD5 padding: append `0x80`, zero-pad to 56 mod 64, append the bit length
as 8 little-endian bytes. -/
def padMessage (msg : List Nat) : List Nat :=
  let ml := msg.length * 8
  let k := (119 - msg.length % 64) % 64
  msg ++ 0x80 :: List.replicate k 0 ++
    (List.range 8).map (fun i => ml / 2 ^ (8 * i) % 256)

/-- Split a byte list into 64-byte blocks (fuel-indexed; the fuel `n` bounds
the number of blocks). -/
def splitBlocksAux : Nat → List Nat → List (List Nat)
  | 0, _ => []
  | _ + 1, [] => []
  | n + 1, l => l.take 64 :: splitBlocksAux n (l.drop 64)

def splitBlocks (l : List Nat) : List (List Nat) :=
  splitBlocksAux l.length l

/-- The 16 digest bytes of a message. -/
def md5Digest (msg : List Nat) : List Nat :=
  let r := (splitBlocks (padMessage msg)).foldl md5Block
    (0x67452301, 0xefcdab89, 0x98badcfe, 0x10325476)
  ([r.1, r.2.1, r.2.2.1, r.2.2.2].map
    (fun w => (List.range 4).map (fun i => w / 2 ^ (8 * i) % 256))).flatten

def hexDigit (n : Nat) : Char :=
  if n < 10 then Char.ofNat (48 + n) else Char.ofNat (87 + n)

/-- Lowercase hexadecimal digest string. -/
def md5Hex (msg : List Nat) : String :=
  String.mk (((md5Digest msg).map (fun b => [hexDigit (b / 16), hexDigit (b % 16)])).flatten)

/-- `generate_doc_id`: MD5 hex digest of the UTF-8 encoded file name. -/
def generate_doc_id (file_name : String) : String :=
  md5Hex (toBytes file_name)

set_option maxRecDepth 4096 in
/-- Sanity vector for the MD5 embedding: the digest of the empty string. -/
theorem generate_doc_id_vector_empty :
    generate_doc_id "" = "d41d8cd98f00b204e9800998ecf8427e" := by
  decide

set_option maxRecDepth 4096 in
/-- Sanity vector for the MD5 embedding: the digest of `"abc"`. -/
theorem generate_doc_id_vector_abc :
    generate_doc_id "abc" = "900150983cd24fb0d6963f7d28e17f72" := by
  decide

/-! ## The output record -/

/-- One emitted chunk record (one NDJSON line).  `source_url` is present only
on txt records, mirroring the dict shapes in the script. -/
structure ChunkRecord where
  doc_id : String
  chunk_id : String
  title : String
  source : String
  file_type : String
  page_num : Nat
  section_title : String
  content : String
  anchor_text : String
  chunk_len : Nat
  source_url : Option String
deriving Repr, DecidableEq

/-! ## Paginated-document adapter: `process_pdf`

The geometric crop and `pdfplumber` extraction are external; the adapter is
given the per-page extraction outcome: either the extracted text (possibly
empty, standing for Python's `None`/`""` falsy check) or an exception raised
while parsing that page.  The `try` block of `process_pdf` wraps the whole
page loop and the `except` arm returns the `results` list accumulated so far,
so the loop stops at the first raising page, keeping earlier records. -/

inductive PageResult where
  | ok (text : String)
  | err (msg : String)
deriving Repr, DecidableEq

/-- The record built for one pdf chunk (the dict literal in `process_pdf`). -/
def mkPdfRecord (file_name doc_id : String) (page_num idx : Nat)
    (sect chunk : String) : ChunkRecord :=
  { doc_id := doc_id
    chunk_id := doc_id ++ "_" ++ toString page_num ++ "_" ++ toString idx
    title := file_name
    source := file_name
    file_type := "pdf"
    page_num := page_num
    section_title := sect
    content := chunk
    anchor_text := anchorOf chunk
    chunk_len := chunk.length
    source_url := none }

/-- The inner `for idx, chunk_text in enumerate(chunks)` loop of
`process_pdf`: chunks shorter than `MIN_CHUNK_SIZE` are skipped. -/
def pdfPageRecords (file_name doc_id : String) (page_num : Nat) (sect : String)
    (chunks : List String) : List ChunkRecord :=
  (chunks.enum.filter (fun p => decide ( MIN_CHUNK_SIZE ≤ p.2.length))).map
    (fun p => mkPdfRecord file_name doc_id page_num p.1 sect p.2)

/-- The page loop of `process_pdf`: `i` is the 1-based page number and `sect`
the carried `current_section_title`.  An `err` page models an exception inside
the `try` block: the records accumulated so far are returned. -/
def pdfLoop (file_name doc_id : String) : Nat → String → List PageResult → List ChunkRecord
  | _, _, [] => []
  | _, _, PageResult.err _ :: _ => []
  | i, sect, PageResult.ok text :: rest =>
    if text.isEmpty then
      pdfLoop file_name doc_id (i + 1) sect rest
    else
      let t := extract_title text
      let sect' := if t.isEmpty then sect else t
      pdfPageRecords file_name doc_id i sect'
          (semantic_chunking (clean_text_basic text) CHUNK_SIZE OVERLAP_SENTENCES) ++
        pdfLoop file_name doc_id (i + 1) sect' rest

/-- `process_pdf`: the section label starts at the sentinel `"未知章节"`. -/
def process_pdf (file_name doc_id : String) (pages : List PageResult) :
    List ChunkRecord :=
  pdfLoop file_name doc_id 1 "未知章节" pages

/-- The per-document dispatch of `main` restricted to pdf files: each file is
`(relative_path, pages)`, its `doc_id` is generated from the relative path,
and the per-file record lists are concatenated (`all_data.extend`). -/
def run_pdfs (files : List (String × List PageResult)) : List ChunkRecord :=
  (files.map (fun f => process_pdf f.1 (generate_doc_id f.1) f.2)).flatten

/-! ## Tabular adapter: `process_excel`

A dataframe is modeled as the list of its rows, each row the list of its
`(column name, cell value)` pairs after `fillna('')` (cell values as the
strings Python's f-string interpolation produces). -/

/-- `" ".join(parts)` where `parts` collects `f"{col}:{val}"` for cells whose
stringified value has non-empty strip. -/
def excelRowContent (row : List (String × String)) : String :=
  String.intercalate " "
    ((row.filter (fun p => !(pyStrip p.2).isEmpty)).map (fun p => p.1 ++ ":" ++ p.2))

/-- The record built for one table row (the dict literal in `process_excel`).
There is no minimum-length check on this path, only the non-empty check. -/
def mkExcelRecord (file_name doc_id : String) (row_num : Nat)
    (cleaned : String) : ChunkRecord :=
  { doc_id := doc_id
    chunk_id := doc_id ++ "_row_" ++ toString row_num
    title := file_name
    source := file_name
    file_type := "table"
    page_num := row_num
    section_title := "故障日志表"
    content := cleaned
    anchor_text := String.mk (cleaned.data.take 30)
    chunk_len := cleaned.length
    source_url := none }

/-- `process_excel`: one record per row whose cleaned joined content is
non-empty; `row_num` is the 1-based dataframe index. -/
def process_excel (file_name doc_id : String)
    (rows : List (List (String × String))) : List ChunkRecord :=
  rows.enum.filterMap (fun p =>
    let cleaned := clean_text_basic (excelRowContent p.2)
    if cleaned.isEmpty then none
    else some (mkExcelRecord file_name doc_id (p.1 + 1) cleaned))

/-! ## Plain-text adapter: `process_txt` -/

/-- ASCII lowering, enough for the `"title:"` / `"url:"` comparisons. -/
def asciiLower (c : Char) : Char :=
  if 'A' ≤ c ∧ c ≤ 'Z' then Char.ofNat (c.toNat + 32) else c

def lowerStr (s : String) : String := String.mk (s.data.map asciiLower)

/-- `s.lower().startswith(p)` for an ASCII pattern `p`. -/
def lowerStartsWith (s p : String) : Bool :=
  List.isPrefixOf p.data (lowerStr s).data

/-- `s.split(":", 1)[1]` under the guarantee that `s` contains a colon. -/
def afterFirstColon (s : String) : String :=
  String.mk ((s.data.dropWhile (fun c => !(c = ':'))).drop 1)

/-- `set(ln) == {"="}`: the line is non-empty and all its characters are `=`. -/
def isEqRow (ln : String) : Bool :=
  !ln.data.isEmpty && ln.data.all (fun c => c = '=')

/-- First `URL:` value among the first 12 header lines. -/
def findUrl : List String → String
  | [] => ""
  | ln :: rest =>
    if lowerStartsWith ln "url:" then pyStrip (afterFirstColon ln)
    else findUrl rest

/-- The record built for one txt chunk (the dict literal in `process_txt`). -/
def mkTxtRecord (file_name doc_id title source_url sect : String) (idx : Nat)
    (chunk : String) : ChunkRecord :=
  { doc_id := doc_id
    chunk_id := doc_id ++ "_txt_" ++ toString idx
    title := title
    source := file_name
    file_type := "txt"
    page_num := idx + 1
    section_title := sect
    content := chunk
    anchor_text := anchorOf chunk
    chunk_len := chunk.length
    source_url := some source_url }

/-- The chunk-emitting loop of `process_txt` with the minimum-length filter. -/
def txtRecords (file_name doc_id title source_url sect : String)
    (chunks : List String) : List ChunkRecord :=
  (chunks.enum.filter (fun p => decide ( MIN_CHUNK_SIZE ≤ p.2.length))).map
    (fun p => mkTxtRecord file_name doc_id title source_url sect p.1 p.2)

/-- `process_txt`: parse the optional download-script header (title line,
`====` separator lines, a `URL:` line), fall back to the whole raw text when
no body lines remain, then clean, chunk and emit.  `splitlines` is modeled as
splitting on `'\n'` (each line is then `rstrip`ped, which also removes a
carriage return). -/
def process_txt (file_name doc_id : String) (raw_text : String) :
    List ChunkRecord :=
  if raw_text.isEmpty then []
  else
    let raw_lines := (raw_text.splitOn "\n").map pyRstrip
    let lines := (raw_lines.filter (fun ln => !(pyStrip ln).isEmpty)).map pyStrip
    let title0 := match lines.head? with
      | some l => l
      | none => "未知标题"
    let title :=
      if lowerStartsWith title0 "title:" then
        let t := pyStrip (afterFirstColon title0)
        if t.isEmpty then title0 else t
      else title0
    let source_url := findUrl (lines.take 12)
    let body_lines := (lines.drop 1).filter
      (fun ln => !isEqRow ln && !lowerStartsWith ln "url:")
    let body_text := if body_lines.isEmpty then raw_text
      else String.intercalate "\n" body_lines
    let cleaned := clean_text_basic body_text
    if cleaned.isEmpty then []
    else
      let sect := if !title.isEmpty then String.mk (title.data.take 50) else "未知标题"
      txtRecords file_name doc_id title source_url sect
        (semantic_chunking cleaned CHUNK_SIZE OVERLAP_SENTENCES)

/-! ## Rich-text adapter: `process_docx`

`python-docx` is external; the adapter is given the paragraph texts. -/

/-- The record built for one docx chunk (the dict literal in `process_docx`). -/
def mkDocxRecord (file_name doc_id : String) (idx : Nat) (chunk : String) :
    ChunkRecord :=
  { doc_id := doc_id
    chunk_id := doc_id ++ "_docx_" ++ toString idx
    title := file_name
    source := file_name
    file_type := "docx"
    page_num := idx + 1
    section_title := "Word文档"
    content := chunk
    anchor_text := anchorOf chunk
    chunk_len := chunk.length
    source_url := none }

/-- `process_docx`: join the non-empty paragraph texts with newlines, clean,
chunk and emit with the minimum-length filter. -/
def process_docx (file_name doc_id : String) (paragraphs : List String) :
    List ChunkRecord :=
  let text := String.intercalate "\n"
    (paragraphs.filter (fun p => !p.isEmpty && !(pyStrip p).isEmpty))
  let cleaned := clean_text_basic text
  if cleaned.isEmpty then []
  else
    (( (semantic_chunking cleaned CHUNK_SIZE OVERLAP_SENTENCES).enum.filter
        (fun p => decide ( MIN_CHUNK_SIZE ≤ p.2.length))).map
      (fun p => mkDocxRecord file_name doc_id p.1 p.2))

/-! ## Page-crop geometry (`process_pdf`, the bbox computation)

The bounding box `(0, height * TOP_CROP_RATIO, width, height * (1 -
BOTTOM_CROP_RATIO))` handed to `page.crop`, in exact rational arithmetic. -/

def crop_bbox (width height : ℚ) : ℚ × ℚ × ℚ × ℚ :=
  (0, height * TOP_CROP_RATIO, width, height * (1 - BOTTOM_CROP_RATIO))

/-! ## Helper lemmas -/

theorem str_empty_append (s : String) : "" ++ s = s := by
  cases s
  rfl

theorem str_append_empty (s : String) : s ++ "" = s := by
  cases s
  show String.mk (_ ++ []) = _
  rw [List.append_nil]

theorem str_mk_append (l m : List Char) :
    String.mk l ++ String.mk m = String.mk (l ++ m) := rfl

theorem str_mk_nil : String.mk [] = "" := rfl

theorem eq_empty_of_isEmpty {s : String} (h : s.isEmpty = true) : s = "" :=
  (String.isEmpty_iff s).mp h

theorem joinAll_filter_ne (l : List String) :
    joinAll (l.filter fun s => !s.isEmpty) = joinAll l := by
  induction l with
  | nil => rfl
  | cons s rest ih =>
    by_cases h : s.isEmpty = true
    · rw [List.filter_cons_of_neg (by simp [h])]
      simp only [joinAll, ih, eq_empty_of_isEmpty h, str_empty_append]
    · rw [List.filter_cons_of_pos (by simp [h])]
      simp only [joinAll, ih]

theorem dropWhile_eq_self_of {p : Char → Bool} {l : List Char}
    (h : ∀ c ∈ l, p c = false) : l.dropWhile p = l := by
  cases l with
  | nil => rfl
  | cons c cs => rw [List.dropWhile_cons_of_neg (by simp [h c (List.mem_cons_self c cs)])]

theorem pyStrip_eq_self {s : String} (h : ∀ c ∈ s.data, isPythonSpace c = false) :
    pyStrip s = s := by
  cases s with
  | mk l =>
    show String.mk _ = _
    rw [dropWhile_eq_self_of h, dropWhile_eq_self_of (by simpa using h),
      List.reverse_reverse]

theorem mem_pyStrip {c : Char} {s : String} (h : c ∈ (pyStrip s).data) :
    c ∈ s.data := by
  unfold pyStrip at h
  simp only [String.data] at h
  rw [List.mem_reverse] at h
  have h2 := (List.dropWhile_suffix isPythonSpace).mem h
  rw [List.mem_reverse] at h2
  exact (List.dropWhile_suffix isPythonSpace).mem h2

/-! ## Lossless splitting (the machinery for claim C2) -/

theorem splitAux_join (cs : List Char) :
    ∀ acc : List Char,
      (∀ c ∈ acc, isPythonSpace c = false) →
      (∀ c ∈ cs, isPythonSpace c = false) →
      joinAll (splitSentencesAux acc cs) = String.mk acc.reverse ++ String.mk cs := by
  induction cs with
  | nil =>
    intro acc hacc _
    by_cases h : acc.isEmpty = true
    · rw [List.isEmpty_iff] at h
      subst h
      rfl
    · rw [splitSentencesAux, if_neg (by simp [h])]
      simp only [joinAll, str_append_empty,
        pyStrip_eq_self (show ∀ c ∈ (String.mk acc.reverse).data, isPythonSpace c = false by
          simpa using hacc)]
      rw [str_mk_append]
      simp
  | cons c cs ih =>
    intro acc hacc hcs
    have hc : isPythonSpace c = false := hcs c (List.mem_cons_self c cs)
    have hcs' : ∀ x ∈ cs, isPythonSpace x = false :=
      fun x hx => hcs x (List.mem_cons_of_mem c hx)
    by_cases hd : sentDelim c = true
    · rw [splitSentencesAux, if_pos hd, joinAll,
        ih [] (by simp) hcs',
        pyStrip_eq_self (by
          intro x hx
          simp only [String.data, List.reverse_cons] at hx
          rw [List.mem_append] at hx
          rcases hx with hx | hx
          · exact hacc x (List.mem_reverse.mp hx)
          · rw [List.mem_singleton] at hx
            rw [hx]
            exact hc)]
      show String.mk _ ++ (String.mk _ ++ String.mk _) = _
      rw [str_mk_append, str_mk_append, str_mk_append]
      simp
    · rw [splitSentencesAux, if_neg hd,
        ih (c :: acc) (by
          intro x hx
          rcases List.mem_cons.mp hx with hx | hx
          · rw [hx]; exact hc
          · exact hacc x hx) hcs']
      rw [str_mk_append, str_mk_append]
      simp

/-! ## Whitespace-collapse lemmas (the machinery for claim C10) -/

/-- Any character emitted by the whitespace-collapsing pass is either the
space character or a non-whitespace character of the input. -/
theorem mem_collapseWsAux {c : Char} :
    ∀ (l : List Char) (b : Bool), c ∈ collapseWsAux b l →
      c = ' ' ∨ (c ∈ l ∧ isPythonSpace c = false) := by
  intro l
  induction l with
  | nil => intro b h; simp [collapseWsAux] at h
  | cons x xs ih =>
    intro b h
    rw [collapseWsAux] at h
    by_cases hx : isPythonSpace x = true
    · rw [if_pos hx] at h
      cases b with
      | false =>
        rw [if_neg (by simp)] at h
        rcases List.mem_cons.mp h with h | h
        · exact Or.inl h
        · rcases ih true h with h | ⟨h1, h2⟩
          · exact Or.inl h
          · exact Or.inr ⟨List.mem_cons_of_mem x h1, h2⟩
      | true =>
        rw [if_pos rfl] at h
        rcases ih true h with h | ⟨h1, h2⟩
        · exact Or.inl h
        · exact Or.inr ⟨List.mem_cons_of_mem x h1, h2⟩
    · rw [if_neg hx] at h
      rcases List.mem_cons.mp h with h | h
      · subst h
        exact Or.inr ⟨List.mem_cons_self c xs, by simpa using hx⟩
      · rcases ih false h with h | ⟨h1, h2⟩
        · exact Or.inl h
        · exact Or.inr ⟨List.mem_cons_of_mem x h1, h2⟩

/-- No two adjacent whitespace characters. -/
abbrev NoDoubleWs (l : List Char) : Prop :=
  l.Chain' (fun a b => ¬(isPythonSpace a = true ∧ isPythonSpace b = true))

/-- The collapsing pass emits no two adjacent whitespace characters, and when
it starts inside a run its output does not start with whitespace. -/
theorem collapseWsAux_chain :
    ∀ l : List Char,
      (∀ b, NoDoubleWs (collapseWsAux b l)) ∧
      (∀ d, (collapseWsAux true l).head? = some d → isPythonSpace d = false) := by
  intro l
  induction l with
  | nil => exact ⟨fun _ => List.chain'_nil, fun d h => by simp [collapseWsAux] at h⟩
  | cons x xs ih =>
    by_cases hx : isPythonSpace x = true
    · refine ⟨fun b => ?_, fun d h => ?_⟩
      · cases b with
        | false =>
          rw [collapseWsAux, if_pos hx, if_neg (by simp)]
          refine List.chain'_cons'.mpr ⟨fun y hy => ?_, ih.1 true⟩
          have := ih.2 y hy
          simp [this]
        | true =>
          rw [collapseWsAux, if_pos hx, if_pos rfl]
          exact ih.1 true
      · rw [collapseWsAux, if_pos hx, if_pos rfl] at h
        exact ih.2 d h
    · refine ⟨fun b => ?_, fun d h => ?_⟩
      · rw [collapseWsAux, if_neg hx]
        refine List.chain'_cons'.mpr ⟨fun y _ => ?_, ih.1 false⟩
        simp only [Bool.not_eq_true] at hx
        simp [hx]
      · rw [collapseWsAux, if_neg hx] at h
        rw [List.head?_cons, Option.some_inj] at h
        subst h
        simpa using hx

/-- The output of the normalizer contains no newline (every whitespace
character it contains is the plain space). -/
theorem clean_no_newline (t : String) : '\n' ∉ (clean_text_basic t).data := by
  intro h
  have h1 : '\n' ∈ ((collapseWsAux false t.data).filter isPythonPrintable) := by
    have := mem_pyStrip (s := String.mk ((collapseWsAux false t.data).filter isPythonPrintable))
      (by simpa [clean_text_basic] using h)
    simpa using this
  have h2 : '\n' ∈ collapseWsAux false t.data := List.mem_of_mem_filter h1
  rcases mem_collapseWsAux t.data false h2 with h3 | ⟨_, h3⟩
  · exact absurd h3 (by decide)
  · exact absurd h3 (by simp [isPythonSpace])

theorem noDoubleWs_dropWhile {l : List Char} {p : Char → Bool}
    (h : NoDoubleWs l) : NoDoubleWs (l.dropWhile p) :=
  h.suffix (List.dropWhile_suffix p)

theorem noDoubleWs_reverse {l : List Char} (h : NoDoubleWs l) :
    NoDoubleWs l.reverse := by
  exact List.chain'_reverse.mpr (h.imp (fun a b hab => by
    intro hc
    exact hab ⟨hc.2, hc.1⟩))

theorem noDoubleWs_pyStrip {s : String} (h : NoDoubleWs s.data) :
    NoDoubleWs (pyStrip s).data := by
  unfold pyStrip
  simp only [String.data]
  exact noDoubleWs_reverse (noDoubleWs_dropWhile (noDoubleWs_reverse (noDoubleWs_dropWhile h)))

/-! ## Anchor lemmas -/

theorem firstSentence_isPre {l m : List Char} (h : firstSentence l = some m) :
    m <+: l := by
  induction l generalizing m with
  | nil => simp [firstSentence] at h
  | cons c cs ih =>
    rw [firstSentence] at h
    by_cases hc : (c = '。' || c = '！' || c = '？') = true
    · rw [if_pos hc, Option.some_inj] at h
      subst h
      exact ⟨cs, rfl⟩
    · rw [if_neg hc] at h
      cases hm : firstSentence cs with
      | none => rw [hm] at h; simp at h
      | some m' =>
        rw [hm, Option.map_some'] at h
        rw [Option.some_inj] at h
        subst h
        obtain ⟨t, ht⟩ := ih hm
        exact ⟨t, by rw [List.cons_append, ht]⟩

theorem anchorOf_isPre (s : String) : (anchorOf s).data <+: s.data := by
  unfold anchorOf
  cases h : firstSentence s.data with
  | some l => exact firstSentence_isPre h
  | none => exact List.take_prefix 30 s.data

/-! ## Shape lemmas for the adapters -/

theorem mem_pdfPageRecords {fn did : String} {p : Nat} {sect : String}
    {chunks : List String} {r : ChunkRecord}
    (h : r ∈ pdfPageRecords fn did p sect chunks) :
    ∃ k c, r = mkPdfRecord fn did p k sect c ∧ MIN_CHUNK_SIZE ≤ c.length := by
  unfold pdfPageRecords at h
  rw [List.mem_map] at h
  obtain ⟨q, hq, hr⟩ := h
  rw [List.mem_filter] at hq
  exact ⟨q.1, q.2, hr.symm, of_decide_eq_true hq.2⟩

theorem mem_pdfLoop {fn did : String} {r : ChunkRecord} :
    ∀ {pages : List PageResult} {i : Nat} {sect : String},
      r ∈ pdfLoop fn did i sect pages →
      ∃ p k s c, r = mkPdfRecord fn did p k s c ∧ MIN_CHUNK_SIZE ≤ c.length := by
  intro pages
  induction pages with
  | nil => intro i sect h; simp [pdfLoop] at h
  | cons page rest ih =>
    intro i sect h
    cases page with
    | err m => simp [pdfLoop] at h
    | ok text =>
      rw [pdfLoop] at h
      by_cases ht : text.isEmpty = true
      · rw [if_pos ht] at h
        exact ih h
      · rw [if_neg ht] at h
        rw [List.mem_append] at h
        rcases h with h | h
        · obtain ⟨k, c, hr, hc⟩ := mem_pdfPageRecords h
          exact ⟨i, k, _, c, hr, hc⟩
        · exact ih h

theorem mem_process_pdf {fn did : String} {pages : List PageResult}
    {r : ChunkRecord} (h : r ∈ process_pdf fn did pages) :
    ∃ p k s c, r = mkPdfRecord fn did p k s c ∧ MIN_CHUNK_SIZE ≤ c.length :=
  mem_pdfLoop h

theorem mem_process_excel {fn did : String} {rows : List (List (String × String))}
    {r : ChunkRecord} (h : r ∈ process_excel fn did rows) :
    ∃ n c, r = mkExcelRecord fn did n c ∧ c.isEmpty = false := by
  unfold process_excel at h
  rw [List.mem_filterMap] at h
  obtain ⟨q, _, hq⟩ := h
  by_cases hc : (clean_text_basic (excelRowContent q.2)).isEmpty = true
  · rw [if_pos hc] at hq
    exact absurd hq (by simp)
  · rw [if_neg hc] at hq
    rw [Option.some_inj] at hq
    exact ⟨q.1 + 1, clean_text_basic (excelRowContent q.2), hq.symm, by simpa using hc⟩

theorem mem_txtRecords {fn did title su sect : String} {chunks : List String}
    {r : ChunkRecord} (h : r ∈ txtRecords fn did title su sect chunks) :
    ∃ k c, r = mkTxtRecord fn did title su sect k c ∧ MIN_CHUNK_SIZE ≤ c.length := by
  unfold txtRecords at h
  rw [List.mem_map] at h
  obtain ⟨q, hq, hr⟩ := h
  rw [List.mem_filter] at hq
  exact ⟨q.1, q.2, hr.symm, of_decide_eq_true hq.2⟩

theorem mem_of_mem_ite_nil {P : Prop} [Decidable P] {l : List ChunkRecord}
    {r : ChunkRecord} (h : r ∈ (if P then ([] : List ChunkRecord) else l)) :
    r ∈ l := by
  split at h
  · exact absurd h (List.not_mem_nil r)
  · exact h

theorem mem_process_txt {fn did raw : String} {r : ChunkRecord}
    (h : r ∈ process_txt fn did raw) :
    ∃ t su sect k c, r = mkTxtRecord fn did t su sect k c ∧
      MIN_CHUNK_SIZE ≤ c.length := by
  unfold process_txt at h
  dsimp only at h
  obtain ⟨k, c, hr, hc⟩ := mem_txtRecords (mem_of_mem_ite_nil (mem_of_mem_ite_nil h))
  exact ⟨_, _, _, k, c, hr, hc⟩

theorem mem_process_docx {fn did : String} {paragraphs : List String}
    {r : ChunkRecord} (h : r ∈ process_docx fn did paragraphs) :
    ∃ k c, r = mkDocxRecord fn did k c ∧ MIN_CHUNK_SIZE ≤ c.length := by
  unfold process_docx at h
  dsimp only at h
  have h1 := mem_of_mem_ite_nil h
  rw [List.mem_map] at h1
  obtain ⟨q, hq, hr⟩ := h1
  rw [List.mem_filter] at hq
  exact ⟨q.1, q.2, hr.symm, of_decide_eq_true hq.2⟩

/-! ## Failure isolation: the page loop stops at the first raising page -/

theorem pdfLoop_append_err (fn did m : String) (rest : List PageResult) :
    ∀ (pre : List PageResult) (i : Nat) (sect : String),
      pdfLoop fn did i sect (pre ++ PageResult.err m :: rest) =
        pdfLoop fn did i sect pre := by
  intro pre
  induction pre with
  | nil => intro i sect; rfl
  | cons page pre' ih =>
    intro i sect
    cases page with
    | err m' => rfl
    | ok text =>
      rw [List.cons_append, pdfLoop, pdfLoop]
      by_cases ht : text.isEmpty = true
      · rw [if_pos ht, if_pos ht, ih]
      · rw [if_neg ht, if_neg ht]
        dsimp only
        rw [ih]

/-! ## Record-field projections -/

theorem mkPdfRecord_fields (fn did : String) (p k : Nat) (sect c : String) :
    (mkPdfRecord fn did p k sect c).content = c ∧
    (mkPdfRecord fn did p k sect c).page_num = p ∧
    (mkPdfRecord fn did p k sect c).section_title = sect ∧
    (mkPdfRecord fn did p k sect c).anchor_text = anchorOf c ∧
    (mkPdfRecord fn did p k sect c).chunk_id =
      did ++ "_" ++ toString p ++ "_" ++ toString k :=
  ⟨rfl, rfl, rfl, rfl, rfl⟩

theorem str_length_data (s : String) : s.length = s.data.length := rfl

theorem one_le_length_of_not_isEmpty {s : String} (h : s.isEmpty = false) :
    1 ≤ s.length := by
  have hne : s ≠ "" := by
    intro he
    rw [he] at h
    exact absurd h (by decide)
  have hd : s.data ≠ [] := by
    intro hd
    apply hne
    cases s with
    | mk l =>
      simp only at hd
      rw [hd]
  rw [str_length_data]
  exact List.length_pos.mpr hd

/-! ## Sample inputs used by witnesses and counterexamples -/

def sampleA : String := String.mk (List.replicate 60 'a')

def sampleB : String := "第一章 总则" ++ String.mk (List.replicate 55 'b')

def sampleC : String := String.mk (List.replicate 60 'c')

def sample50 : String := String.mk (List.replicate 50 'x')

/-! ## Claim theorems -/

/-- C1 (amended): the minimum-length filter is applied on the pdf, txt and
docx paths — every record they emit has content length at least
`MIN_CHUNK_SIZE` — but the tabular path has no such filter: a table-row
record is only guaranteed non-empty content.  (The original claim, that the
bound holds for every format including tabular, is refuted by
`C1_counterexample`.) -/
theorem C1_min_chunk_filter (fn did : String) :
    (∀ pages, ∀ r ∈ process_pdf fn did pages, MIN_CHUNK_SIZE ≤ r.content.length) ∧
    (∀ raw, ∀ r ∈ process_txt fn did raw, MIN_CHUNK_SIZE ≤ r.content.length) ∧
    (∀ paras, ∀ r ∈ process_docx fn did paras, MIN_CHUNK_SIZE ≤ r.content.length) ∧
    (∀ rows, ∀ r ∈ process_excel fn did rows, 1 ≤ r.content.length) := by
  refine ⟨fun pages r hr => ?_, fun raw r hr => ?_, fun paras r hr => ?_,
    fun rows r hr => ?_⟩
  · obtain ⟨p, k, s, c, hrr, hc⟩ := mem_process_pdf hr
    rw [hrr]
    exact hc
  · obtain ⟨t, su, sect, k, c, hrr, hc⟩ := mem_process_txt hr
    rw [hrr]
    exact hc
  · obtain ⟨k, c, hrr, hc⟩ := mem_process_docx hr
    rw [hrr]
    exact hc
  · obtain ⟨n, c, hrr, hc⟩ := mem_process_excel hr
    rw [hrr]
    exact one_le_length_of_not_isEmpty hc

/-- C1 counterexample: a one-row table whose joined row content is `"a:b"`
(length 3) produces a record, although 3 is far below `MIN_CHUNK_SIZE = 50` —
the tabular adapter performs no minimum-length filtering. -/
theorem C1_counterexample :
    (process_excel "t.csv" "d" [[("a", "b")]]).map ChunkRecord.chunk_len = [3] ∧
    3 < MIN_CHUNK_SIZE := by
  decide

/-- C1 witness: a pdf page whose single chunk has length exactly 50 does
produce a record, and the theorem instantiates on it. -/
theorem C1_min_chunk_filter_witness :
    mkPdfRecord "f.pdf" "d" 1 0 "未知章节" sample50 ∈
        process_pdf "f.pdf" "d" [PageResult.ok sample50] ∧
    MIN_CHUNK_SIZE ≤ (mkPdfRecord "f.pdf" "d" 1 0 "未知章节" sample50).content.length := by
  refine ⟨by decide, ?_⟩
  exact (C1_min_chunk_filter "f.pdf" "d").1 [PageResult.ok sample50] _ (by decide)

/-- C2 (amended): concatenating the sentences returned by `split_sentences`
reproduces the input exactly for every normalized text that contains no
whitespace character.  In general the per-sentence `strip()` deletes spaces
adjacent to sentence boundaries (see `C2_counterexample`), so losslessness
fails on normalized texts that retain interior spaces. -/
theorem C2_lossless_on_spaceless (t : String)
    (h : ∀ c ∈ t.data, isPythonSpace c = false) :
    joinAll (split_sentences t) = t := by
  unfold split_sentences
  rw [joinAll_filter_ne]
  rw [splitAux_join t.data [] (by simp) h]
  exact str_empty_append t

/-- C2 witness: a whitespace-free normalized text is reassembled exactly. -/
theorem C2_lossless_on_spaceless_witness :
    joinAll (split_sentences "你好。谢谢！好？嗯") = "你好。谢谢！好？嗯" :=
  C2_lossless_on_spaceless "你好。谢谢！好？嗯" (by decide)

/-- C2 counterexample: `"a。 b"` is normalized (a fixed point of
`clean_text_basic`), yet the splitter returns `["a。", "b"]`, losing the
interior space: the concatenation is `"a。b" ≠ "a。 b"`. -/
theorem C2_counterexample :
    clean_text_basic "a。 b" = "a。 b" ∧
    joinAll (split_sentences "a。 b") = "a。b" ∧
    ("a。b" : String) ≠ "a。 b" := by
  refine ⟨by decide, by decide, by decide⟩

/-- C3: with three sentences of length 6, `chunk_size = 10` and
`overlap = 1`, the assembler emits exactly `[s1, s1 ++ s2, s2 ++ s3]`; in
particular each successive chunk starts with the sentence the previous chunk
ended with. -/
theorem C3_overlap_chunks (s1 s2 s3 : String) (h1 : s1.length = 6)
    (h2 : s2.length = 6) (h3 : s3.length = 6) :
    chunkLoop 10 1 [s1, s2, s3] [] 0 = [s1, s1 ++ s2, s2 ++ s3] := by
  simp [chunkLoop, pySliceLast, joinAll, h1, h2, h3, str_append_empty]

/-- C3 witness: the assembler run on three concrete six-character sentences. -/
theorem C3_overlap_chunks_witness :
    chunkLoop 10 1 ["abcdef", "ghijkl", "mnopqr"] [] 0 =
      ["abcdef", "abcdef" ++ "ghijkl", "ghijkl" ++ "mnopqr"] :=
  C3_overlap_chunks "abcdef" "ghijkl" "mnopqr" (by decide) (by decide) (by decide)

/-- C4 (amended): for a document with three non-empty pages where only the
second carries a chapter marker recognized as `"第一章"`, every record of
page 1 carries the sentinel label `"未知章节"` and every record of pages 2
and 3 carries `"第一章"` — the label the regex actually extracts is the
matched marker `"第一章"`, not the fuller heading `"第一章 总则"` claimed
(refuted by `C4_counterexample`). -/
theorem C4_section_persistence (fn did t1 t2 t3 : String)
    (e1 : extract_title t1 = "") (e2 : extract_title t2 = "第一章")
    (e3 : extract_title t3 = "") (n1 : t1.isEmpty = false)
    (n2 : t2.isEmpty = false) (n3 : t3.isEmpty = false) :
    ∀ r ∈ process_pdf fn did [PageResult.ok t1, PageResult.ok t2, PageResult.ok t3],
      (r.page_num = 1 → r.section_title = "未知章节") ∧
      ((r.page_num = 2 ∨ r.page_num = 3) → r.section_title = "第一章") := by
  intro r hr
  simp only [process_pdf, pdfLoop, e1, e2, e3, n1, n2, n3, Bool.false_eq_true,
    if_false] at hr
  rw [show ("" : String).isEmpty = true from rfl] at hr
  rw [show ("第一章" : String).isEmpty = false from rfl] at hr
  simp only [if_true, Bool.false_eq_true, if_false, List.append_nil] at hr
  rw [List.mem_append] at hr
  rcases hr with h | hr
  · obtain ⟨k, c, hrr, _⟩ := mem_pdfPageRecords h
    subst hrr
    exact ⟨fun _ => rfl, fun hp => by
      rcases hp with hp | hp <;> simp [mkPdfRecord] at hp⟩
  · rw [List.mem_append] at hr
    rcases hr with h | h
    · obtain ⟨k, c, hrr, _⟩ := mem_pdfPageRecords h
      subst hrr
      exact ⟨fun hp => by simp [mkPdfRecord] at hp, fun _ => rfl⟩
    · obtain ⟨k, c, hrr, _⟩ := mem_pdfPageRecords h
      subst hrr
      exact ⟨fun hp => by simp [mkPdfRecord] at hp, fun _ => rfl⟩

/-- C4 witness: in the three-page document `[60×'a', "第一章 总则"+55×'b',
60×'c']` the record emitted for the marker page carries the label
`"第一章"`, by the persistence theorem applied to that concrete record. -/
theorem C4_section_persistence_witness :
    (mkPdfRecord "f.pdf" "d" 2 0 "第一章" sampleB).section_title = "第一章" :=
  (C4_section_persistence "f.pdf" "d" sampleA sampleB sampleC
    (by decide) (by decide) (by decide) (by decide) (by decide) (by decide)
    (mkPdfRecord "f.pdf" "d" 2 0 "第一章" sampleB) (by decide)).2 (Or.inl rfl)

/-- C4 counterexample: on that same document the emitted section labels are
`["未知章节", "第一章", "第一章"]` — the records of the marker page and its
successor carry `"第一章"`, not the `"第一章 总则"` the claim requires. -/
theorem C4_counterexample :
    (process_pdf "f.pdf" "d"
        [PageResult.ok sampleA, PageResult.ok sampleB, PageResult.ok sampleC]).map
      ChunkRecord.section_title = ["未知章节", "第一章", "第一章"] ∧
    ("第一章" : String) ≠ "第一章 总则" := by
  refine ⟨by decide, by decide⟩

/-- C5 (amended): an exception raised while parsing page `k` of a file is
caught at the adapter boundary: the adapter returns exactly the records
accumulated from the pages before the failure (possibly a non-empty partial
set — the original "zero records" claim is refuted by `C5_counterexample`),
and the per-file isolation means the run continues with the remaining files
unchanged. -/
theorem C5_failure_isolation (fn did m : String) (pre rest : List PageResult) :
    process_pdf fn did (pre ++ PageResult.err m :: rest) = process_pdf fn did pre ∧
    (∀ f fs, run_pdfs (f :: fs) =
      process_pdf f.1 (generate_doc_id f.1) f.2 ++ run_pdfs fs) :=
  ⟨pdfLoop_append_err fn did m rest pre 1 "未知章节", fun _ _ => rfl⟩

/-- C5 witness: the isolation theorem instantiated on a concrete two-page
file whose second page raises. -/
theorem C5_failure_isolation_witness :
    process_pdf "f.pdf" "d" ([PageResult.ok sampleA] ++ PageResult.err "boom" :: []) =
      process_pdf "f.pdf" "d" [PageResult.ok sampleA] ∧
    (∀ f fs, run_pdfs (f :: fs) =
      process_pdf f.1 (generate_doc_id f.1) f.2 ++ run_pdfs fs) :=
  C5_failure_isolation "f.pdf" "d" "boom" [PageResult.ok sampleA] []

/-- C5 counterexample: a file whose first page parses (yielding one record)
and whose second page raises contributes one record, not zero — the `except`
arm returns the partially filled `results` list. -/
theorem C5_counterexample :
    (process_pdf "f.pdf" "d" [PageResult.ok sampleA, PageResult.err "boom"]).length
      = 1 := by
  decide

/-- C6 (amended): the identifier shape `doc_id ++ "_" ++ unit ++ "_" ++ chunk`
holds only on the pdf path; the tabular path emits `doc_id ++ "_row_" ++ row`
with no chunk-index component, and the txt/docx paths emit
`doc_id ++ "_txt_"/"_docx_" ++ chunk` with no unit-index component (their
`page_num` is the chunk index plus one).  All identifiers are computed by
pure functions of the inputs, hence deterministic.  (The per-format shapes of
the original claim are refuted by `C6_counterexample`.) -/
theorem C6_chunk_id_shapes (fn did : String) :
    (∀ pages : List PageResult, ∀ r ∈ process_pdf fn did pages,
      ∃ k : Nat, r.chunk_id = did ++ "_" ++ toString r.page_num ++ "_" ++ toString k) ∧
    (∀ rows : List (List (String × String)), ∀ r ∈ process_excel fn did rows,
      r.chunk_id = did ++ "_row_" ++ toString r.page_num) ∧
    (∀ raw : String, ∀ r ∈ process_txt fn did raw,
      ∃ k : Nat, r.chunk_id = did ++ "_txt_" ++ toString k ∧ r.page_num = k + 1) ∧
    (∀ paras : List String, ∀ r ∈ process_docx fn did paras,
      ∃ k : Nat, r.chunk_id = did ++ "_docx_" ++ toString k ∧ r.page_num = k + 1) := by
  refine ⟨fun pages r hr => ?_, fun rows r hr => ?_, fun raw r hr => ?_,
    fun paras r hr => ?_⟩
  · obtain ⟨p, k, s, c, hrr, _⟩ := mem_process_pdf hr
    subst hrr
    exact ⟨k, rfl⟩
  · obtain ⟨n, c, hrr, _⟩ := mem_process_excel hr
    subst hrr
    rfl
  · obtain ⟨t, su, sect, k, c, hrr, _⟩ := mem_process_txt hr
    subst hrr
    exact ⟨k, rfl, rfl⟩
  · obtain ⟨k, c, hrr, _⟩ := mem_process_docx hr
    subst hrr
    exact ⟨k, rfl, rfl⟩

/-- C6 witness: the pdf conjunct instantiated on a concrete one-page file. -/
theorem C6_chunk_id_shapes_witness :
    ∃ k : Nat, (mkPdfRecord "f.pdf" "d" 1 0 "未知章节" sampleA).chunk_id =
      "d" ++ "_" ++ toString (mkPdfRecord "f.pdf" "d" 1 0 "未知章节" sampleA).page_num
        ++ "_" ++ toString k :=
  (C6_chunk_id_shapes "f.pdf" "d").1 [PageResult.ok sampleA]
    (mkPdfRecord "f.pdf" "d" 1 0 "未知章节" sampleA) (by decide)

/-- C6 counterexample: a table row's identifier is `"d_row_1"`, which is not
the claimed `doc_id ++ "_" ++ unit_index ++ "_" ++ chunk_index` shape
(`"d_1_0"` for this record): the tabular identifier carries the literal tag
`row` and no chunk-index component. -/
theorem C6_counterexample :
    (process_excel "t.csv" "d" [[("a", "b")]]).map ChunkRecord.chunk_id
      = ["d_row_1"] ∧
    ("d_row_1" : String) ≠ "d" ++ "_" ++ toString (1 : Nat) ++ "_" ++ toString (0 : Nat) := by
  refine ⟨by decide, by decide⟩

/-- C7: `generate_doc_id` (the MD5 hex digest of the UTF-8 bytes of the
relative path, implemented in full above) is a pure function of the relative
path: equal paths give byte-identical doc_ids, and the whole per-file
pipeline keyed by that doc_id produces identical records on identical
inputs — re-running is idempotent for unchanged files. -/
theorem C7_doc_id_determinism (p q : String) (h : p = q) :
    generate_doc_id p = generate_doc_id q ∧
    ∀ fn pages, process_pdf fn (generate_doc_id p) pages =
      process_pdf fn (generate_doc_id q) pages := by
  subst h
  exact ⟨rfl, fun _ _ => rfl⟩

/-- C7 witness: instantiated at a concrete relative path. -/
theorem C7_doc_id_determinism_witness :
    generate_doc_id "data/raw/a.pdf" = generate_doc_id "data/raw/a.pdf" ∧
    ∀ fn pages, process_pdf fn (generate_doc_id "data/raw/a.pdf") pages =
      process_pdf fn (generate_doc_id "data/raw/a.pdf") pages :=
  C7_doc_id_determinism "data/raw/a.pdf" "data/raw/a.pdf" rfl

/-- C8: for every record emitted by any of the four adapters, `anchor_text`
is a prefix of `content` (the pdf/txt/docx anchor is the leading segment up
to the first 。！？ or the first 30 characters; the tabular anchor is the
first 30 characters), and consequently `anchor_text` is never longer than
`content`. -/
theorem C8_anchor_containment (fn did : String) :
    (∀ pages : List PageResult, ∀ r ∈ process_pdf fn did pages,
      r.anchor_text.data <+: r.content.data ∧
        r.anchor_text.length ≤ r.content.length) ∧
    (∀ rows : List (List (String × String)), ∀ r ∈ process_excel fn did rows,
      r.anchor_text.data <+: r.content.data ∧
        r.anchor_text.length ≤ r.content.length) ∧
    (∀ raw : String, ∀ r ∈ process_txt fn did raw,
      r.anchor_text.data <+: r.content.data ∧
        r.anchor_text.length ≤ r.content.length) ∧
    (∀ paras : List String, ∀ r ∈ process_docx fn did paras,
      r.anchor_text.data <+: r.content.data ∧
        r.anchor_text.length ≤ r.content.length) := by
  refine ⟨fun pages r hr => ?_, fun rows r hr => ?_, fun raw r hr => ?_,
    fun paras r hr => ?_⟩
  · obtain ⟨p, k, s, c, hrr, _⟩ := mem_process_pdf hr
    subst hrr
    exact ⟨anchorOf_isPre c, (anchorOf_isPre c).length_le⟩
  · obtain ⟨n, c, hrr, _⟩ := mem_process_excel hr
    subst hrr
    exact ⟨ List.take_prefix 30 c.data, ( List.take_prefix 30 c.data).length_le⟩
  · obtain ⟨t, su, sect, k, c, hrr, _⟩ := mem_process_txt hr
    subst hrr
    exact ⟨anchorOf_isPre c, (anchorOf_isPre c).length_le⟩
  · obtain ⟨k, c, hrr, _⟩ := mem_process_docx hr
    subst hrr
    exact ⟨anchorOf_isPre c, (anchorOf_isPre c).length_le⟩

/-- C8 witness: the pdf conjunct instantiated on a concrete one-page file. -/
theorem C8_anchor_containment_witness :
    (mkPdfRecord "f.pdf" "d" 1 0 "未知章节" sampleA).anchor_text.data <+:
        (mkPdfRecord "f.pdf" "d" 1 0 "未知章节" sampleA).content.data ∧
    (mkPdfRecord "f.pdf" "d" 1 0 "未知章节" sampleA).anchor_text.length ≤
        (mkPdfRecord "f.pdf" "d" 1 0 "未知章节" sampleA).content.length :=
  (C8_anchor_containment "f.pdf" "d").1 [PageResult.ok sampleA]
    (mkPdfRecord "f.pdf" "d" 1 0 "未知章节" sampleA) (by decide)

/-- C9: under the default configuration the crop bounding box of a page of
height `H` spans exactly the vertical band from `0.05·H` to `0.92·H`
(`H · (1 - 8/100) = H · 92/100` in exact arithmetic), so no point of the
bands `[0, 0.05H)` and `(0.92H, H]` lies inside the retained region handed
to the extractor. -/
theorem C9_crop_band (w h y : ℚ)
    (hy : (0 ≤ y ∧ y < 5 / 100 * h) ∨ (92 / 100 * h < y ∧ y ≤ h)) :
    (crop_bbox w h).2.1 = 5 / 100 * h ∧
    (crop_bbox w h).2.2.2 = 92 / 100 * h ∧
    ¬((crop_bbox w h).2.1 ≤ y ∧ y ≤ (crop_bbox w h).2.2.2) := by
  unfold crop_bbox TOP_CROP_RATIO BOTTOM_CROP_RATIO
  refine ⟨by ring, by ring, ?_⟩
  rintro ⟨hl, hr⟩
  rcases hy with ⟨_, h2⟩ | ⟨h2, _⟩
  · simp only at hl
    linarith
  · simp only at hr
    linarith

/-- C9 witness: on a page of height 100, the point at height 1 (inside the
top band `[0, 5)`) is outside the retained region `[5, 92]`. -/
theorem C9_crop_band_witness :
    (crop_bbox 10 100).2.1 = 5 / 100 * 100 ∧
    (crop_bbox 10 100).2.2.2 = 92 / 100 * 100 ∧
    ¬((crop_bbox 10 100).2.1 ≤ (1 : ℚ) ∧ (1 : ℚ) ≤ (crop_bbox 10 100).2.2.2) :=
  C9_crop_band 10 100 1 (Or.inl ⟨by norm_num, by norm_num⟩)

/-- C10 (amended): the normalizer's output never contains a newline (so the
splitter's newline rule cannot fire on normalized text), and for inputs all
of whose characters are printable or whitespace its output contains no two
adjacent whitespace characters.  The unrestricted no-double-whitespace claim
is false: deleting a non-printable character that separated two collapsed
spaces leaves a double space (see `C10_counterexample`). -/
theorem C10_normalizer_whitespace (t : String)
    (h : ∀ c ∈ t.data, isPythonPrintable c = true ∨ isPythonSpace c = true) :
    '\n' ∉ (clean_text_basic t).data ∧ NoDoubleWs (clean_text_basic t).data := by
  refine ⟨clean_no_newline t, ?_⟩
  have hfil : (collapseWsAux false t.data).filter isPythonPrintable =
      collapseWsAux false t.data := by
    rw [List.filter_eq_self]
    intro c hc
    rcases mem_collapseWsAux t.data false hc with h1 | ⟨h1, h2⟩
    · subst h1
      decide
    · rcases h c h1 with hp | hp
      · exact hp
      · rw [hp] at h2
        cases h2
  unfold clean_text_basic
  exact noDoubleWs_pyStrip (by
    show NoDoubleWs ((collapseWsAux false t.data).filter isPythonPrintable)
    rw [hfil]
    exact (collapseWsAux_chain t.data).1 false)

/-- C10 witness: a text of letters, spaces, a tab and a newline normalizes
to a single-spaced single line. -/
theorem C10_normalizer_whitespace_witness :
    '\n' ∉ (clean_text_basic "a  b\tc\nd").data ∧
    NoDoubleWs (clean_text_basic "a  b\tc\nd").data :=
  C10_normalizer_whitespace "a  b\tc\nd" (by decide)

/-- C10 counterexample: `"a \x00 b"` normalizes to `"a  b"`: the NUL
character is not whitespace, so the two spaces around it survive collapsing
as two separate single spaces, and dropping the non-printable NUL then
leaves them adjacent — the output contains a run of two spaces. -/
theorem C10_counterexample :
    clean_text_basic "a \x00 b" = "a  b" ∧
    ¬ NoDoubleWs (clean_text_basic "a \x00 b").data := by
  refine ⟨by decide, fun hnd => ?_⟩
  rw [show clean_text_basic "a \x00 b" = "a  b" from by decide] at hnd
  have hnd' : List.Chain'
      (fun a b => ¬(isPythonSpace a = true ∧ isPythonSpace b = true))
      ['a', ' ', ' ', 'b'] := hnd
  exact (List.chain'_cons.mp (List.chain'_cons.mp hnd').2).1 ⟨by decide, by decide⟩

end KnowledgeRag
